import Mathlib

/-!
Verification of the watch-side video `Source`
(`src/js/hang/src/watch/video/source.ts`): rendition selection, the
capability filter, the decoder-output (frame emission) path with its
staleness checks and pending/active track switching, buffer status and
per-track statistics.

Timestamps are modelled as integers (milliseconds after
`Time.Milli.fromMicro`), pixel counts as rationals (JS numbers; every value
that occurs here is exact in a double).  Records keyed by rendition name
are modelled as association lists in entry order.  The reactive `Effect`
and `Signal` machinery of `@moq/signals` and the `Sync` clock are not part
of the sources; where their behaviour matters it is modelled from the
spec (sections 4.7, 5 and 9) and from the comments in `source.ts`, and is
called out in the doc comment of the corresponding definition.
-/

namespace MoqVideo

/-- Container descriptor from the catalog:
`container: {kind:"cmaf", timescale} | {kind:"legacy"}` (spec section 6). -/
inductive Container where
  | cmaf (timescale : Nat)
  | legacy
deriving DecidableEq

/-- `Catalog.VideoConfig` (source.ts imports it from `../../catalog`;
fields per the catalog fragment in the spec, section 3 and 6).
`codedWidth`/`codedHeight` are optional, `description` is a hex string. -/
structure VideoConfig where
  codec : String
  codedWidth : Option Nat := none
  codedHeight : Option Nat := none
  description : Option String := none
  optimizeForLatency : Option Bool := none
  container : Container
  flip : Option Bool := none
deriving DecidableEq

/-! ### Capability filter (`Source.#runSupported`, source.ts 111-146) -/

/-- Modelled from the spec: one hex digit of a catalog `description`
(`src/js/hang/src/util/hex` is not under src/; the spec, section 4.4 and 6,
says `description` is a hex-encoded string). -/
def hexDigitVal (c : Char) : Option Nat :=
  if '0' ≤ c ∧ c ≤ '9' then some (c.toNat - '0'.toNat)
  else if 'a' ≤ c ∧ c ≤ 'f' then some (c.toNat - 'a'.toNat + 10)
  else if 'A' ≤ c ∧ c ≤ 'F' then some (c.toNat - 'A'.toNat + 10)
  else none

/-- Modelled from the spec: hex pairs decoded to bytes (`Hex.toBytes`). -/
def hexPairs : List Char → Option (List Nat)
  | [] => some []
  | [_] => none
  | c1 :: c2 :: rest => do
    let hi ← hexDigitVal c1
    let lo ← hexDigitVal c2
    let r ← hexPairs rest
    pure ((16 * hi + lo) :: r)

/-- Modelled from the spec: `Hex.toBytes` on a whole string. -/
def hexToBytes (s : String) : Option (List Nat) :=
  hexPairs s.data

/-- The configuration object handed to `VideoDecoder.isConfigSupported`.
For CMAF the code builds `{codec, optimizeForLatency}` only; for legacy it
spreads the whole rendition and adds the decoded `description`. -/
structure ProbeConfig where
  codec : String
  codedWidth : Option Nat := none
  codedHeight : Option Nat := none
  description : Option (List Nat) := none
  optimizeForLatency : Bool
  container : Option Container := none
  flip : Option Bool := none
deriving DecidableEq

/-- The probe configuration built for one rendition (source.ts 118-136):
`container.kind === "cmaf"` probes `{codec, optimizeForLatency ?? true}`;
legacy probes the spread rendition with `description` hex-decoded and
`optimizeForLatency ?? true`. -/
def probeOf (r : VideoConfig) : ProbeConfig :=
  match r.container with
  | .cmaf _ =>
    { codec := r.codec
      optimizeForLatency := r.optimizeForLatency.getD true }
  | .legacy =>
    { codec := r.codec
      codedWidth := r.codedWidth
      codedHeight := r.codedHeight
      description := r.description.bind hexToBytes
      optimizeForLatency := r.optimizeForLatency.getD true
      container := some r.container
      flip := r.flip }

/-- `Source.#runSupported` (source.ts 111-146): keep the renditions the
decoder reports supported (`ok` is the `VideoDecoder.isConfigSupported`
oracle); the second component is whether the "no supported renditions"
warning fires (source.ts 140-142). -/
def runSupported (renditions : List (String × VideoConfig))
    (ok : ProbeConfig → Bool) : List (String × VideoConfig) × Bool :=
  let supported := renditions.filter fun nr => ok (probeOf nr.2)
  (supported, supported.isEmpty && !renditions.isEmpty)

/-! ### Rendition selection (`Source.#selectRendition`, source.ts 365-399) -/

/-- `target` as read by selection (`Target`, source.ts 14-22). -/
structure Target where
  pixels : Option ℚ := none
  rendition : Option String := none
deriving DecidableEq

/-- A natural number as a rational, in reduced constructor form so that the
kernel can evaluate comparisons on concrete inputs. -/
def natToQ (n : Nat) : ℚ :=
  Rat.mk' (Int.ofNat n) 1 Nat.one_ne_zero (Nat.coprime_one_right _)

theorem natToQ_eq_cast (n : Nat) : natToQ n = (n : ℚ) := by
  refine Rat.ext ?_ ?_ <;> simp [natToQ]

/-- `Number.MAX_SAFE_INTEGER / 2 - 1`, the default desired pixel count
(source.ts 371); exact in a double: `9007199254740989 / 2`, written in
reduced constructor form (see `maxPixelsDefault_eq`). -/
def maxPixelsDefault : ℚ :=
  Rat.mk' 9007199254740989 2 (by decide) (by decide)

theorem maxPixelsDefault_eq :
    maxPixelsDefault = (9007199254740991 : ℚ) / 2 - 1 := by
  rw [maxPixelsDefault, Rat.mk'_eq_divInt, Rat.divInt_eq_div]
  norm_num

/-- JS truthiness test of an optional number: `undefined` and `0` are
falsy (used by `!rendition.codedHeight` and `!largerSize`). -/
def natFalsy (x : Option Nat) : Bool :=
  match x with
  | none => true
  | some v => v == 0

/-- JS truthiness test of an optional JS number (rational model). -/
def qFalsy (x : Option ℚ) : Bool :=
  match x with
  | none => true
  | some v => v == 0

/-- JS truthiness of `string | undefined`: `undefined` and `""` are falsy
(used by `if (larger)` / `if (smaller)`). -/
def strTruthy (x : Option String) : Bool :=
  match x with
  | none => false
  | some s => s != ""

/-- The four loop variables of `#selectRendition` (source.ts 376-380). -/
@[ext]
structure SelAcc where
  larger : Option String := none
  largerSize : Option ℚ := none
  smaller : Option String := none
  smallerSize : Option ℚ := none

/-- The two chained conditionals of the `#selectRendition` loop body
(source.ts 386-392), on a computed `size`:
`size > pixels && (!largerSize || size < largerSize)` updates the `larger`
pair, else `size < pixels && (!smallerSize || size > smallerSize)` updates
the `smaller` pair. -/
def selUpdate (pixels size : ℚ) (n : String) (acc : SelAcc) : SelAcc :=
  if pixels < size ∧
      (qFalsy acc.largerSize = true ∨ size < acc.largerSize.getD 0) then
    { acc with larger := some n, largerSize := some size }
  else if size < pixels ∧
      (qFalsy acc.smallerSize = true ∨ acc.smallerSize.getD 0 < size) then
    { acc with smaller := some n, smallerSize := some size }
  else acc

/-- One iteration of the `#selectRendition` loop (source.ts 382-393):
skip renditions without (truthy) coded dimensions, else run the body on
`size = codedHeight * codedWidth`. -/
def selStep (pixels : ℚ) (acc : SelAcc) (nr : String × VideoConfig) : SelAcc :=
  if natFalsy nr.2.codedHeight || natFalsy nr.2.codedWidth then acc
  else
    selUpdate pixels (natToQ (nr.2.codedHeight.getD 0 * nr.2.codedWidth.getD 0))
      nr.1 acc

/-- The returns after the loop (source.ts 394-398): `if (larger) return
larger; if (smaller) return smaller; return entries[0][0]` — JS string
truthiness, so an empty-string name falls through. -/
def selReturn (renditions : List (String × VideoConfig)) (acc : SelAcc) :
    Option String :=
  if strTruthy acc.larger then acc.larger
  else if strTruthy acc.smaller then acc.smaller
  else renditions.head?.map (·.1)

/-- `Source.#selectRendition` (source.ts 365-399).  With at most one entry,
return it; otherwise scan with `pixels = target?.pixels ??
Number.MAX_SAFE_INTEGER / 2 - 1`, preferring the tracked `larger`, then the
tracked `smaller`, then the first entry. -/
def selectRendition (renditions : List (String × VideoConfig))
    (target : Option Target) : Option String :=
  if renditions.length ≤ 1 then renditions.head?.map (·.1)
  else
    selReturn renditions
      (renditions.foldl
        (selStep ((target.bind (·.pixels)).getD maxPixelsDefault)) {})

/-- The area of a rendition, when its coded dimensions are truthy
(mirrors the guard and the `size` computation of the loop). -/
def renditionArea (c : VideoConfig) : Option ℚ :=
  if natFalsy c.codedHeight || natFalsy c.codedWidth then none
  else some (natToQ (c.codedHeight.getD 0 * c.codedWidth.getD 0))

/-- The entries that take part in the size comparison, with their areas. -/
def candidates (renditions : List (String × VideoConfig)) : List (String × ℚ) :=
  renditions.filterMap fun nr => (renditionArea nr.2).map fun a => (nr.1, a)

/-- First-in-entry-order minimum by area, seeded with `acc`. -/
def minFold : Option (String × ℚ) → List (String × ℚ) → Option (String × ℚ)
  | acc, [] => acc
  | none, x :: l => minFold (some x) l
  | some b, x :: l => minFold (some (if x.2 < b.2 then x else b)) l

/-- First-in-entry-order maximum by area, seeded with `acc`. -/
def maxFold : Option (String × ℚ) → List (String × ℚ) → Option (String × ℚ)
  | acc, [] => acc
  | none, x :: l => maxFold (some x) l
  | some b, x :: l => maxFold (some (if b.2 < x.2 then x else b)) l

/-- The amended selection rule, stated declaratively: the first-in-order
rendition of minimal area among those with area strictly greater than the
target; otherwise the first-in-order of maximal area among those with area
strictly smaller; renditions whose area equals the target exactly are never
chosen; fall back to the first entry when neither bucket is inhabited. -/
def specSelectAmended (renditions : List (String × VideoConfig))
    (target : Option Target) : Option String :=
  if renditions.length ≤ 1 then renditions.head?.map (·.1)
  else
    match minFold none ((candidates renditions).filter fun x =>
        (target.bind (·.pixels)).getD maxPixelsDefault < x.2) with
    | some p => some p.1
    | none =>
      match maxFold none ((candidates renditions).filter fun x =>
          x.2 < (target.bind (·.pixels)).getD maxPixelsDefault) with
      | some p => some p.1
      | none => renditions.head?.map (·.1)

/-- Selection as the claim words it: the smallest rendition whose area is
`≥` the target; if none, the largest whose area is `<` the target; ties
broken by name ordering; fall back to the first entry when no rendition
has coded dimensions. -/
def specClaimSelect (renditions : List (String × VideoConfig))
    (target : Option Target) : Option String :=
  let pixels := (target.bind (·.pixels)).getD maxPixelsDefault
  let cands := candidates renditions
  if cands.isEmpty then renditions.head?.map (·.1)
  else
    let pickMin := (cands.filter fun x => pixels ≤ x.2).foldl
      (fun b x =>
        match b with
        | none => some x
        | some b =>
          if x.2 < b.2 ∨ (x.2 = b.2 ∧ x.1 < b.1) then some x else some b) none
    match pickMin with
    | some p => some p.1
    | none =>
      let pickMax := (cands.filter fun x => x.2 < pixels).foldl
        (fun b x =>
          match b with
          | none => some x
          | some b =>
            if b.2 < x.2 ∨ (x.2 = b.2 ∧ x.1 < b.1) then some x else some b) none
      match pickMax with
      | some p => some p.1
      | none => renditions.head?.map (·.1)

/-! ### Selected decoder config (`Source.#runSelected`, source.ts 148-167) -/

/-- `{ ...supported[selected], codedWidth: undefined, codedHeight: undefined }`
(source.ts 165): the value written to `#selectedConfig`, the
`RequiredDecoderConfig` that drives pipeline restarts (source.ts 24-27). -/
def stripConfig (c : VideoConfig) : VideoConfig :=
  { c with codedWidth := none, codedHeight := none }

/-- Two configs differing at most in `codedWidth`/`codedHeight`: every
other field is equal. -/
def differOnlyCoded (c1 c2 : VideoConfig) : Prop :=
  c1.codec = c2.codec ∧ c1.description = c2.description ∧
    c1.optimizeForLatency = c2.optimizeForLatency ∧
    c1.container = c2.container ∧ c1.flip = c2.flip

/-- Modelled from the spec: a signal re-triggers its dependent effects only
when its value actually changes (`@moq/signals` is not under src/; the code
relies on this in the comment at source.ts 164, and spec section 9 models
signals as watch-cells re-running dependents on change).  `#runPending`
restarts the pipeline exactly when the `#selectedConfig` value changes. -/
def restartNeeded (c1 c2 : VideoConfig) : Bool :=
  stripConfig c1 != stripConfig c2

/-! ### Buffer status (`Source.#runBuffer`, source.ts 423-433) -/

inductive BufferState where
  | empty
  | filled
deriving DecidableEq

structure BufferStatus where
  state : BufferState
deriving DecidableEq

/-- `Source.#runBuffer` (source.ts 423-433): `empty` iff enabled and no
frame is published, else `filled`.  The frame argument is the timestamp
held by the `frame` signal, `none` when it is undefined. -/
def runBuffer (enabled : Bool) (frame : Option Int) : BufferStatus :=
  if enabled && frame.isNone then ⟨.empty⟩ else ⟨.filled⟩

/-! ### Stats (`#runLegacyTrack` 295-300 and `#runCmafTrack` 347-352) -/

/-- `VideoStats` (source.ts 31-35). -/
@[ext]
structure VideoStats where
  frameCount : Nat
  timestamp : Int
  bytesReceived : Nat
deriving DecidableEq

/-- A container sample as received by the input loops: timestamp, keyframe
flag and payload bytes. -/
structure Sample where
  timestamp : Int
  keyframe : Bool := false
  data : List Nat := []
deriving DecidableEq

/-- The `#stats.update` callback run once per received sample
(source.ts 296-300 and 348-352): increment the frame count, add the byte
length, record the sample's timestamp. -/
def statsUpdate (current : Option VideoStats) (ts : Int) (len : Nat) :
    Option VideoStats :=
  some
    { frameCount := (current.map (·.frameCount)).getD 0 + 1
      timestamp := ts
      bytesReceived := (current.map (·.bytesReceived)).getD 0 + len }

/-- One receive-loop step as it affects stats: the update happens when the
sample is received, before `decoder.decode`, in both container paths. -/
def receiveSample (stats : Option VideoStats) (s : Sample) : Option VideoStats :=
  statsUpdate stats s.timestamp s.data.length

/-- Stats after a track has received a list of samples. -/
def statsAfter (l : List Sample) : Option VideoStats :=
  l.foldl receiveSample none

/-! ### Track switching and frame emission
(`Source.#runPending` 169-196, `Source.#runTrack` 198-264, `Source.close`
435-442)

Track effects are identified by numeric ids.  The state gathers the
signals and private fields of the `Source` that this machinery touches,
plus two observation traces: `published`, the sequence of values the
`frame` signal was set to a frame (with the publishing effect's id), and
`closedFrames`, how many previously published `VideoFrame`s were closed.
The `Effect` scope semantics (`close` runs the registered cleanups
immediately, `new Effect()` has no parent) are modelled from the spec
(section 5) and from the comments in `#runPending` (source.ts 191-192). -/

structure SourceState where
  /-- `#timestamp`: the last post-wait published timestamp, ms. -/
  timestamp : Option Int := none
  /-- the timestamp of the frame currently held by the `frame` signal. -/
  frame : Option Int := none
  /-- `#pending`: id of the pending track effect. -/
  pending : Option Nat := none
  /-- `#active`: id of the active track effect. -/
  active : Option Nat := none
  /-- the `active` signal: name of the active rendition. -/
  activeName : Option String := none
  /-- trace of frame publications: (effect id, timestamp). -/
  published : List (Nat × Int) := []
  /-- ids of closed effects (their subscription and decoder are closed). -/
  closed : List Nat := []
  /-- how many previously published frames were closed by `prev?.close()`. -/
  closedFrames : Nat := 0
deriving DecidableEq

/-- Closing a track effect runs its cleanups (source.ts 200-206, 256): the
subscription and the decoder close (recorded via `closed`), and the
`#timestamp` signal is cleared when the closing effect is — at that moment —
the value of `#active`. -/
def closeEffect (s : SourceState) (e : Nat) : SourceState :=
  if s.active = some e then
    { s with closed := s.closed ++ [e], timestamp := none }
  else { s with closed := s.closed ++ [e] }

/-- `frame.update(prev => { prev?.close(); return v })`. -/
def setFrame (s : SourceState) (v : Option Int) : SourceState :=
  { s with
    closedFrames := s.closedFrames + (if s.frame.isSome then 1 else 0)
    frame := v }

/-- A re-run of `#runPending` that finds a precondition missing
(source.ts 175-186): the cleanup of the previous run closes `#pending`
first (source.ts 193), then the branch closes `#active`, clears it and
clears the `frame` signal, closing the previous frame. -/
def teardownPending (s : SourceState) : SourceState :=
  let s := match s.pending with
    | some p => closeEffect s p
    | none => s
  let s := match s.active with
    | some a => closeEffect s a
    | none => s
  let s := { s with active := none }
  setFrame s none

/-- A re-run of `#runPending` with every precondition present
(source.ts 188-195): the cleanup of the previous run closes the previous
`#pending`, then a fresh effect becomes `#pending` and `#runTrack` starts
on it.  The active effect is untouched. -/
def startPending (s : SourceState) (e : Nat) : SourceState :=
  let s := match s.pending with
    | some p => closeEffect s p
    | none => s
  { s with pending := some e }

/-- The decoder-output callback up to the `Sync` wait (source.ts 211-220):
the first staleness check against `#timestamp ?? 0`, then the placeholder
publication when the `frame` signal is undefined.  Returns the new state
and whether the handler proceeds to the wait. -/
def framePreWait (s : SourceState) (e : Nat) (ts : Int) : SourceState × Bool :=
  if ts < s.timestamp.getD 0 then (s, false)
  else if s.frame = none then
    ({ s with frame := some ts, published := s.published ++ [(e, ts)] }, true)
  else (s, true)

/-- The decoder-output callback after the `Sync` wait resolved
(source.ts 226-245): the second staleness check, then `#timestamp` is set,
the frame is published (closing the previous one), and a pending effect is
promoted: the previously active effect is closed — which, since `#active`
still points at it, also clears `#timestamp` via its cleanup — then
`#active`/`#pending`/the `active` signal are updated. -/
def framePostWait (s : SourceState) (e : Nat) (name : String) (ts : Int) :
    SourceState :=
  if ts < s.timestamp.getD 0 then s
  else
    let s := { s with timestamp := some ts }
    let s := setFrame s (some ts)
    let s := { s with published := s.published ++ [(e, ts)] }
    if s.pending = some e then
      let s := match s.active with
        | some o => closeEffect s o
        | none => s
      { s with active := some e, pending := none, activeName := some name }
    else s

/-- One decoder-output invocation for a decoded frame with timestamp `ts`
(ms) on track effect `e` subscribed to rendition `name`.  `cancelled` is
whether `effect.cancel` won the race at the `Sync` wait (source.ts 222-224);
invocations on an effect can only be cancelled once the effect is closed. -/
def handleFrame (s : SourceState) (e : Nat) (name : String) (ts : Int)
    (cancelled : Bool) : SourceState :=
  let pre := framePreWait s e ts
  if pre.2 = false then pre.1
  else if cancelled then pre.1
  else framePostWait pre.1 e name ts

/-- `Source.close()` (source.ts 435-442): clear the `frame` signal (closing
the previous frame), then close the root effect scope; the only
track-related cleanup registered there closes `#pending` (source.ts 193). -/
def sourceClose (s : SourceState) : SourceState :=
  let s := setFrame s none
  match s.pending with
  | some p => closeEffect s p
  | none => s

/-- The timestamps published via the `frame` signal by track effect `e`,
in publication order. -/
def publishedOn (s : SourceState) (e : Nat) : List Int :=
  (s.published.filter fun p => p.1 == e).map (·.2)

/-- Executable non-decreasing check on a timestamp sequence. -/
def nondecreasing : List Int → Bool
  | [] => true
  | [_] => true
  | a :: b :: rest => decide (a ≤ b) && nondecreasing (b :: rest)

theorem nondecreasing_iff_chain (l : List Int) :
    nondecreasing l = true ↔ List.Chain' (· ≤ ·) l := by
  induction l with
  | nil => simp [nondecreasing]
  | cons a l ih =>
    cases l with
    | nil => simp [nondecreasing]
    | cons b r =>
      simp only [nondecreasing, Bool.and_eq_true, decide_eq_true_eq,
        List.chain'_cons, ih]

/-! ## Component lemmas for the state operations -/

@[simp] theorem closeEffect_timestamp (s : SourceState) (e : Nat) :
    (closeEffect s e).timestamp =
      if s.active = some e then none else s.timestamp := by
  unfold closeEffect; split <;> simp_all

@[simp] theorem closeEffect_frame (s : SourceState) (e : Nat) :
    (closeEffect s e).frame = s.frame := by
  unfold closeEffect; split <;> rfl

@[simp] theorem closeEffect_pending (s : SourceState) (e : Nat) :
    (closeEffect s e).pending = s.pending := by
  unfold closeEffect; split <;> rfl

@[simp] theorem closeEffect_active (s : SourceState) (e : Nat) :
    (closeEffect s e).active = s.active := by
  unfold closeEffect; split <;> rfl

@[simp] theorem closeEffect_activeName (s : SourceState) (e : Nat) :
    (closeEffect s e).activeName = s.activeName := by
  unfold closeEffect; split <;> rfl

@[simp] theorem closeEffect_published (s : SourceState) (e : Nat) :
    (closeEffect s e).published = s.published := by
  unfold closeEffect; split <;> rfl

@[simp] theorem closeEffect_closed (s : SourceState) (e : Nat) :
    (closeEffect s e).closed = s.closed ++ [e] := by
  unfold closeEffect; split <;> rfl

@[simp] theorem closeEffect_closedFrames (s : SourceState) (e : Nat) :
    (closeEffect s e).closedFrames = s.closedFrames := by
  unfold closeEffect; split <;> rfl

/-- A frame that passes the first staleness check: the pre-wait phase
publishes it as a placeholder exactly when no frame is held, and proceeds
to the wait. -/
theorem framePreWait_pass (s : SourceState) (e : Nat) (ts : Int)
    (h : ¬ ts < s.timestamp.getD 0) :
    framePreWait s e ts =
      (if s.frame = none then
          { s with frame := some ts, published := s.published ++ [(e, ts)] }
        else s, true) := by
  unfold framePreWait
  rw [if_neg h]
  split <;> simp_all

theorem framePreWait_pass_fst (s : SourceState) (e : Nat) (ts : Int)
    (h : ¬ ts < s.timestamp.getD 0) :
    (framePreWait s e ts).1 =
      if s.frame = none then
        { s with frame := some ts, published := s.published ++ [(e, ts)] }
      else s := by
  rw [framePreWait_pass s e ts h]

/-- A non-cancelled invocation whose frame passes the first staleness
check runs the pre-wait phase and then the post-wait phase. -/
theorem handleFrame_run (s : SourceState) (e : Nat) (name : String)
    (ts : Int) (hts : ¬ ts < s.timestamp.getD 0) :
    handleFrame s e name ts false =
      framePostWait (framePreWait s e ts).1 e name ts := by
  unfold handleFrame
  rw [framePreWait_pass s e ts hts]
  rfl

/-- A frame that passes the second staleness check while its effect is the
pending one and another effect is active: the post-wait phase records the
timestamp, publishes, closes the old active effect — resetting `#timestamp`
through its cleanup, since `#active` still references it — and installs the
new effect as active. -/
theorem framePostWait_promote (s : SourceState) (e o : Nat) (name : String)
    (ts : Int) (hp : s.pending = some e) (ha : s.active = some o)
    (hts : ¬ ts < s.timestamp.getD 0) :
    framePostWait s e name ts =
      { timestamp := none, frame := some ts, pending := none,
        active := some e, activeName := some name,
        published := s.published ++ [(e, ts)],
        closed := s.closed ++ [o],
        closedFrames := s.closedFrames +
          (if s.frame.isSome then 1 else 0) } := by
  unfold framePostWait setFrame
  rw [if_neg hts]
  simp [hp, ha, closeEffect]

/-! ## Lemmas on rendition selection -/

theorem natToQ_pos {n : Nat} (h : 0 < n) : 0 < natToQ n := by
  rw [natToQ_eq_cast]
  exact_mod_cast h

theorem minFold_mem :
    ∀ (l : List (String × ℚ)) (acc : Option (String × ℚ)) (p : String × ℚ),
      minFold acc l = some p → p ∈ l ∨ acc = some p := by
  intro l
  induction l with
  | nil =>
    intro acc p h
    rcases acc with _ | b <;> exact Or.inr h
  | cons x xs ih =>
    intro acc p h
    rcases acc with _ | b
    · simp only [minFold] at h
      rcases ih (some x) p h with h' | h'
      · exact Or.inl (List.mem_cons_of_mem _ h')
      · exact Or.inl (by simp_all)
    · simp only [minFold] at h
      rcases ih (some (if x.2 < b.2 then x else b)) p h with h' | h'
      · exact Or.inl (List.mem_cons_of_mem _ h')
      · by_cases hlt : x.2 < b.2
        · rw [if_pos hlt] at h'
          exact Or.inl (by simp_all)
        · rw [if_neg hlt] at h'
          exact Or.inr h'

theorem maxFold_mem :
    ∀ (l : List (String × ℚ)) (acc : Option (String × ℚ)) (p : String × ℚ),
      maxFold acc l = some p → p ∈ l ∨ acc = some p := by
  intro l
  induction l with
  | nil =>
    intro acc p h
    rcases acc with _ | b <;> exact Or.inr h
  | cons x xs ih =>
    intro acc p h
    rcases acc with _ | b
    · simp only [maxFold] at h
      rcases ih (some x) p h with h' | h'
      · exact Or.inl (List.mem_cons_of_mem _ h')
      · exact Or.inl (by simp_all)
    · simp only [maxFold] at h
      rcases ih (some (if b.2 < x.2 then x else b)) p h with h' | h'
      · exact Or.inl (List.mem_cons_of_mem _ h')
      · by_cases hlt : b.2 < x.2
        · rw [if_pos hlt] at h'
          exact Or.inl (by simp_all)
        · rw [if_neg hlt] at h'
          exact Or.inr h'

theorem candidates_name (rs : List (String × VideoConfig)) :
    ∀ x ∈ candidates rs, ∃ c : VideoConfig, (x.1, c) ∈ rs := by
  intro x hx
  simp only [candidates, List.mem_filterMap] at hx
  obtain ⟨nr, hnr, hmap⟩ := hx
  rcases hra : renditionArea nr.2 with _ | a <;> rw [hra] at hmap
  · simp at hmap
  · simp only [Option.map_some', Option.some_inj] at hmap
    refine ⟨nr.2, ?_⟩
    rw [← hmap]
    simpa using hnr

/-- The loop guard admits an entry exactly when its area is positive. -/
theorem guard_size_pos (nr : String × VideoConfig)
    (hg : ¬ (natFalsy nr.2.codedHeight || natFalsy nr.2.codedWidth) = true) :
    0 < natToQ (nr.2.codedHeight.getD 0 * nr.2.codedWidth.getD 0) := by
  simp only [Bool.or_eq_true, not_or, Bool.not_eq_true] at hg
  obtain ⟨hh, hw⟩ := hg
  apply natToQ_pos
  rcases hch : nr.2.codedHeight with _ | v <;> rw [hch] at hh
  · simp [natFalsy] at hh
  · rcases hcw : nr.2.codedWidth with _ | w <;> rw [hcw] at hw
    · simp [natFalsy] at hw
    · simp only [natFalsy] at hh hw
      simp only [Option.getD_some]
      exact Nat.mul_pos (Nat.pos_of_ne_zero (by simpa using hh))
        (Nat.pos_of_ne_zero (by simpa using hw))

theorem selUpdate_above_none (px sz : ℚ) (n : String) (acc : SelAcc)
    (hcmp : px < sz) (h2 : acc.largerSize = none) :
    selUpdate px sz n acc =
      { acc with larger := some n, largerSize := some sz } := by
  unfold selUpdate
  rw [if_pos ⟨hcmp, Or.inl (by rw [h2]; rfl)⟩]

theorem selUpdate_above_some (px sz b : ℚ) (n : String) (acc : SelAcc)
    (hcmp : px < sz) (h2 : acc.largerSize = some b) (hb : b ≠ 0) :
    selUpdate px sz n acc =
      if sz < b then { acc with larger := some n, largerSize := some sz }
      else acc := by
  unfold selUpdate
  by_cases hlt : sz < b
  · rw [if_pos ⟨hcmp, Or.inr (by rw [h2]; simpa using hlt)⟩, if_pos hlt]
  · have hc1 : ¬(px < sz ∧
        (qFalsy acc.largerSize = true ∨ sz < acc.largerSize.getD 0)) := by
      rintro ⟨-, h' | h'⟩
      · rw [h2] at h'
        exact hb (by simpa [qFalsy] using h')
      · rw [h2] at h'
        exact hlt (by simpa using h')
    have hc2 : ¬(sz < px ∧
        (qFalsy acc.smallerSize = true ∨ acc.smallerSize.getD 0 < sz)) := by
      rintro ⟨h', -⟩
      exact absurd h' (asymm hcmp)
    rw [if_neg hc1, if_neg hc2, if_neg hlt]

theorem selUpdate_below_none (px sz : ℚ) (n : String) (acc : SelAcc)
    (hcmp : sz < px) (h4 : acc.smallerSize = none) :
    selUpdate px sz n acc =
      { acc with smaller := some n, smallerSize := some sz } := by
  unfold selUpdate
  have hc1 : ¬(px < sz ∧
      (qFalsy acc.largerSize = true ∨ sz < acc.largerSize.getD 0)) := by
    rintro ⟨h', -⟩
    exact absurd h' (asymm hcmp)
  rw [if_neg hc1, if_pos ⟨hcmp, Or.inl (by rw [h4]; rfl)⟩]

theorem selUpdate_below_some (px sz b : ℚ) (n : String) (acc : SelAcc)
    (hcmp : sz < px) (h4 : acc.smallerSize = some b) (hb : b ≠ 0) :
    selUpdate px sz n acc =
      if b < sz then { acc with smaller := some n, smallerSize := some sz }
      else acc := by
  unfold selUpdate
  have hc1 : ¬(px < sz ∧
      (qFalsy acc.largerSize = true ∨ sz < acc.largerSize.getD 0)) := by
    rintro ⟨h', -⟩
    exact absurd h' (asymm hcmp)
  by_cases hlt : b < sz
  · rw [if_neg hc1, if_pos ⟨hcmp, Or.inr (by rw [h4]; simpa using hlt)⟩,
      if_pos hlt]
  · have hc2 : ¬(sz < px ∧
        (qFalsy acc.smallerSize = true ∨ acc.smallerSize.getD 0 < sz)) := by
      rintro ⟨-, h' | h'⟩
      · rw [h4] at h'
        exact hb (by simpa [qFalsy] using h')
      · rw [h4] at h'
        exact hlt (by simpa using h')
    rw [if_neg hc1, if_neg hc2, if_neg hlt]

theorem selUpdate_equal (px sz : ℚ) (n : String) (acc : SelAcc)
    (hcmp : px = sz) : selUpdate px sz n acc = acc := by
  unfold selUpdate
  have hc1 : ¬(px < sz ∧
      (qFalsy acc.largerSize = true ∨ sz < acc.largerSize.getD 0)) := by
    rintro ⟨h', -⟩
    rw [hcmp] at h'
    exact lt_irrefl _ h'
  have hc2 : ¬(sz < px ∧
      (qFalsy acc.smallerSize = true ∨ acc.smallerSize.getD 0 < sz)) := by
    rintro ⟨h', -⟩
    rw [hcmp] at h'
    exact lt_irrefl _ h'
  rw [if_neg hc1, if_neg hc2]

/-- The single scan of `#selectRendition` computes, in its `larger` fields,
the first-in-order minimum of the candidates strictly above the target and,
in its `smaller` fields, the first-in-order maximum of those strictly
below. -/
theorem selLoop_split (px : ℚ) :
    ∀ (rs : List (String × VideoConfig)) (acc : SelAcc)
      (lg sm : Option (String × ℚ)),
      acc.larger = lg.map (·.1) → acc.largerSize = lg.map (·.2) →
      acc.smaller = sm.map (·.1) → acc.smallerSize = sm.map (·.2) →
      (∀ v, lg = some v → 0 < v.2) → (∀ v, sm = some v → 0 < v.2) →
      rs.foldl (selStep px) acc =
        { larger :=
            (minFold lg ((candidates rs).filter fun x => px < x.2)).map (·.1)
          largerSize :=
            (minFold lg ((candidates rs).filter fun x => px < x.2)).map (·.2)
          smaller :=
            (maxFold sm ((candidates rs).filter fun x => x.2 < px)).map (·.1)
          smallerSize :=
            (maxFold sm ((candidates rs).filter fun x => x.2 < px)).map (·.2) } := by
  intro rs
  induction rs with
  | nil =>
    intro acc lg sm h1 h2 h3 h4 _ _
    simp only [List.foldl_nil, candidates, List.filterMap_nil, List.filter_nil,
      minFold, maxFold]
    exact SelAcc.ext h1 h2 h3 h4
  | cons nr rs ih =>
    intro acc lg sm h1 h2 h3 h4 hlg hsm
    rw [List.foldl_cons]
    by_cases hg : (natFalsy nr.2.codedHeight || natFalsy nr.2.codedWidth) = true
    · have hstep : selStep px acc nr = acc := by
        unfold selStep
        rw [if_pos hg]
      have hra : renditionArea nr.2 = none := by
        unfold renditionArea
        rw [if_pos hg]
      have hcand : candidates (nr :: rs) = candidates rs := by
        simp only [candidates, List.filterMap_cons, hra, Option.map_none']
      rw [hstep, hcand]
      exact ih acc lg sm h1 h2 h3 h4 hlg hsm
    · have hra : renditionArea nr.2 =
          some (natToQ (nr.2.codedHeight.getD 0 * nr.2.codedWidth.getD 0)) := by
        unfold renditionArea
        rw [if_neg hg]
      have hstep : selStep px acc nr =
          selUpdate px (natToQ (nr.2.codedHeight.getD 0 * nr.2.codedWidth.getD 0))
            nr.1 acc := by
        unfold selStep
        rw [if_neg hg]
      have hpos : (0 : ℚ) <
          natToQ (nr.2.codedHeight.getD 0 * nr.2.codedWidth.getD 0) :=
        guard_size_pos nr hg
      have hcand : candidates (nr :: rs) =
          (nr.1, natToQ (nr.2.codedHeight.getD 0 * nr.2.codedWidth.getD 0))
            :: candidates rs := by
        simp only [candidates, List.filterMap_cons, hra, Option.map_some']
      rw [hstep, hcand]
      generalize hsz :
        natToQ (nr.2.codedHeight.getD 0 * nr.2.codedWidth.getD 0) = sz
      rw [hsz] at hpos
      rcases lt_trichotomy px sz with hcmp | hcmp | hcmp
      · -- strictly above the target: head joins the `larger` bucket
        have hfa : ((nr.1, sz) :: candidates rs).filter
              (fun x => decide (px < x.2)) =
            (nr.1, sz) :: (candidates rs).filter (fun x => decide (px < x.2)) := by
          simp only [List.filter_cons]
          rw [if_pos (by simpa using hcmp)]
        have hfb : ((nr.1, sz) :: candidates rs).filter
              (fun x => decide (x.2 < px)) =
            (candidates rs).filter (fun x => decide (x.2 < px)) := by
          simp only [List.filter_cons]
          rw [if_neg (by simp [asymm hcmp])]
        rw [hfa, hfb]
        rcases hlgc : lg with _ | b
        · rw [hlgc] at h1 h2
          rw [selUpdate_above_none px sz nr.1 acc hcmp (by rw [h2]; rfl)]
          rw [ih { acc with larger := some nr.1, largerSize := some sz }
            (some (nr.1, sz)) sm rfl rfl h3 h4
            (by intro v hv; injection hv with hv; subst hv; exact hpos) hsm]
          simp only [minFold]
        · rw [hlgc] at h1 h2 hlg
          have hbpos : 0 < b.2 := hlg b rfl
          rw [selUpdate_above_some px sz b.2 nr.1 acc hcmp (by rw [h2]; rfl)
            (ne_of_gt hbpos)]
          by_cases hless : sz < b.2
          · rw [if_pos hless]
            rw [ih { acc with larger := some nr.1, largerSize := some sz }
              (some (nr.1, sz)) sm rfl rfl h3 h4
              (by intro v hv; injection hv with hv; subst hv; exact hpos) hsm]
            simp only [minFold]
            rw [if_pos hless]
          · rw [if_neg hless]
            rw [ih acc (some b) sm h1 h2 h3 h4 hlg hsm]
            simp only [minFold]
            rw [if_neg hless]
      · -- area equal to the target: in neither bucket, loop leaves `acc`
        have hfa : ((nr.1, sz) :: candidates rs).filter
              (fun x => decide (px < x.2)) =
            (candidates rs).filter (fun x => decide (px < x.2)) := by
          simp only [List.filter_cons]
          rw [if_neg (by simp [hcmp])]
        have hfb : ((nr.1, sz) :: candidates rs).filter
              (fun x => decide (x.2 < px)) =
            (candidates rs).filter (fun x => decide (x.2 < px)) := by
          simp only [List.filter_cons]
          rw [if_neg (by simp [hcmp])]
        rw [hfa, hfb, selUpdate_equal px sz nr.1 acc hcmp]
        exact ih acc lg sm h1 h2 h3 h4 hlg hsm
      · -- strictly below the target: head joins the `smaller` bucket
        have hfa : ((nr.1, sz) :: candidates rs).filter
              (fun x => decide (px < x.2)) =
            (candidates rs).filter (fun x => decide (px < x.2)) := by
          simp only [List.filter_cons]
          rw [if_neg (by simp [asymm hcmp])]
        have hfb : ((nr.1, sz) :: candidates rs).filter
              (fun x => decide (x.2 < px)) =
            (nr.1, sz) :: (candidates rs).filter (fun x => decide (x.2 < px)) := by
          simp only [List.filter_cons]
          rw [if_pos (by simpa using hcmp)]
        rw [hfa, hfb]
        rcases hsmc : sm with _ | b
        · rw [hsmc] at h3 h4
          rw [selUpdate_below_none px sz nr.1 acc hcmp (by rw [h4]; rfl)]
          rw [ih { acc with smaller := some nr.1, smallerSize := some sz }
            lg (some (nr.1, sz)) h1 h2 rfl rfl hlg
            (by intro v hv; injection hv with hv; subst hv; exact hpos)]
          simp only [maxFold]
        · rw [hsmc] at h3 h4 hsm
          have hbpos : 0 < b.2 := hsm b rfl
          rw [selUpdate_below_some px sz b.2 nr.1 acc hcmp (by rw [h4]; rfl)
            (ne_of_gt hbpos)]
          by_cases hmore : b.2 < sz
          · rw [if_pos hmore]
            rw [ih { acc with smaller := some nr.1, smallerSize := some sz }
              lg (some (nr.1, sz)) h1 h2 rfl rfl hlg
              (by intro v hv; injection hv with hv; subst hv; exact hpos)]
            simp only [maxFold]
            rw [if_pos hmore]
          · rw [if_neg hmore]
            rw [ih acc lg (some b) h1 h2 h3 h4 hlg hsm]
            simp only [maxFold]
            rw [if_neg hmore]


/-! ## Claims -/

/-- C7: `bufferStatus` has state `empty` if and only if the source is
enabled and no frame is currently published; in every other state it is
`filled`.  `#runBuffer` recomputes the status from exactly these two
signals on every change, so this characterises every reachable state. -/
theorem bufferStatus_empty_iff :
    ∀ (enabled : Bool) (frame : Option Int),
      ((runBuffer enabled frame).state = .empty ↔
        (enabled = true ∧ frame = none))
      ∧ ((runBuffer enabled frame).state = .filled ↔
        ¬(enabled = true ∧ frame = none)) := by
  intro enabled frame
  cases enabled <;> cases frame <;> simp [runBuffer]

/-- C5: two catalog video configs that differ only in `codedWidth` and/or
`codedHeight` strip to the same `RequiredDecoderConfig`, so the
`#selectedConfig` signal does not change and the running pipeline (decoder
and track subscription) is not restarted. -/
theorem coded_size_change_no_restart :
    ∀ c1 c2 : VideoConfig, differOnlyCoded c1 c2 →
      stripConfig c1 = stripConfig c2 ∧ restartNeeded c1 c2 = false := by
  rintro ⟨k1, w1, h1, d1, o1, t1, f1⟩ ⟨k2, w2, h2, d2, o2, t2, f2⟩
  rintro ⟨hk, hd, ho, ht, hf⟩
  simp only [differOnlyCoded] at hk hd ho ht hf
  subst hk hd ho ht hf
  refine ⟨?_, ?_⟩ <;> simp [stripConfig, restartNeeded]

/-- C5 witness: two concrete configs differing only in coded size. -/
theorem coded_size_change_no_restart_witness :
    differOnlyCoded
        { codec := "avc1.640028", codedWidth := some 1920,
          codedHeight := some 1080, container := .cmaf 90000 }
        { codec := "avc1.640028", codedWidth := some 1280,
          codedHeight := some 720, container := .cmaf 90000 }
      ∧ (stripConfig
            { codec := "avc1.640028", codedWidth := some 1920,
              codedHeight := some 1080, container := .cmaf 90000 } =
          stripConfig
            { codec := "avc1.640028", codedWidth := some 1280,
              codedHeight := some 720, container := .cmaf 90000 }
        ∧ restartNeeded
            { codec := "avc1.640028", codedWidth := some 1920,
              codedHeight := some 1080, container := .cmaf 90000 }
            { codec := "avc1.640028", codedWidth := some 1280,
              codedHeight := some 720, container := .cmaf 90000 } = false) :=
  ⟨⟨rfl, rfl, rfl, rfl, rfl⟩,
    coded_size_change_no_restart _ _ ⟨rfl, rfl, rfl, rfl, rfl⟩⟩

/-- C9: the capability filter probes the platform decoder with
`{codec, optimizeForLatency ?? true}` and nothing else for CMAF
renditions, and with the spread rendition including the hex-decoded
`description` for legacy renditions; it keeps exactly the renditions the
oracle accepts, and the warning fires exactly when the kept set is empty
while the catalog's rendition set is not. -/
theorem capability_filter_probe :
    (∀ (codec : String) (w h : Option Nat) (d : Option String)
        (o fl : Option Bool) (ts : Nat),
      probeOf
          { codec := codec, codedWidth := w, codedHeight := h,
            description := d, optimizeForLatency := o,
            container := .cmaf ts, flip := fl } =
        { codec := codec, optimizeForLatency := o.getD true })
    ∧ (∀ (codec : String) (w h : Option Nat) (d : Option String)
        (o fl : Option Bool),
      probeOf
          { codec := codec, codedWidth := w, codedHeight := h,
            description := d, optimizeForLatency := o,
            container := .legacy, flip := fl } =
        { codec := codec, codedWidth := w, codedHeight := h,
          description := d.bind hexToBytes,
          optimizeForLatency := o.getD true,
          container := some .legacy, flip := fl })
    ∧ (∀ (rs : List (String × VideoConfig)) (ok : ProbeConfig → Bool)
        (x : String × VideoConfig),
      x ∈ (runSupported rs ok).1 ↔ x ∈ rs ∧ ok (probeOf x.2) = true)
    ∧ (∀ (rs : List (String × VideoConfig)) (ok : ProbeConfig → Bool),
      (runSupported rs ok).2 = true ↔
        ((runSupported rs ok).1 = [] ∧ rs ≠ [])) := by
  refine ⟨fun _ _ _ _ _ _ _ => rfl, fun _ _ _ _ _ _ => rfl, ?_, ?_⟩
  · intro rs ok x
    simp [runSupported, List.mem_filter]
  · intro rs ok
    simp [runSupported, List.isEmpty_iff]

/-- C7 witness: enabled with no frame is `empty`; disabled is `filled`. -/
theorem bufferStatus_empty_iff_witness :
    (runBuffer true none).state = .empty
    ∧ (runBuffer false none).state = .filled :=
  ⟨(bufferStatus_empty_iff true none).1.mpr ⟨rfl, rfl⟩,
    (bufferStatus_empty_iff false none).2.mpr (by simp)⟩

/-- C9 witness: the CMAF probe of a fully populated rendition keeps only
codec and latency mode; the legacy probe carries the decoded description. -/
theorem capability_filter_probe_witness :
    probeOf
        { codec := "avc1.640028", codedWidth := some 1920,
          codedHeight := some 1080, description := some "00ff",
          optimizeForLatency := none, container := .cmaf 90000,
          flip := some true } =
      { codec := "avc1.640028", optimizeForLatency := true }
    ∧ probeOf
        { codec := "avc1.640028", codedWidth := some 1920,
          codedHeight := some 1080, description := some "00ff",
          optimizeForLatency := none, container := .legacy,
          flip := some true } =
      { codec := "avc1.640028", codedWidth := some 1920,
        codedHeight := some 1080, description := some [0, 255],
        optimizeForLatency := true, container := some .legacy,
        flip := some true } := by
  constructor
  · exact capability_filter_probe.1 "avc1.640028" (some 1920) (some 1080)
      (some "00ff") none (some true) 90000
  · rw [capability_filter_probe.2.1 "avc1.640028" (some 1920) (some 1080)
      (some "00ff") none (some true)]
    decide

/-- C10: when `#runPending` re-runs with a missing precondition (no
broadcast, disabled, nothing selected or no selected config), the active
pipeline is closed, the previously published VideoFrame is closed, the
`frame` signal becomes undefined, and a still-pending pipeline is closed
too — disabling blanks the display rather than freezing the last frame. -/
theorem teardown_clears_frame :
    ∀ (s : SourceState) (a : Nat) (f : Int),
      s.active = some a → s.frame = some f →
        (teardownPending s).frame = none
        ∧ (teardownPending s).active = none
        ∧ a ∈ (teardownPending s).closed
        ∧ (teardownPending s).closedFrames = s.closedFrames + 1
        ∧ (∀ p, s.pending = some p → p ∈ (teardownPending s).closed) := by
  intro s a f ha hf
  cases hp : s.pending with
  | none =>
    simp [teardownPending, setFrame, hp, ha, hf]
  | some p =>
    simp [teardownPending, setFrame, hp, ha, hf]

/-- C10 witness: a concrete enabled state with an active track and a
published frame, torn down. -/
theorem teardown_clears_frame_witness :
    ({ timestamp := some 100, frame := some 100, active := some 1,
        activeName := some "hd", published := [(1, 100)] } : SourceState).active
        = some 1
    ∧ (teardownPending
        { timestamp := some 100, frame := some 100, active := some 1,
          activeName := some "hd", published := [(1, 100)] }).frame = none
    ∧ (teardownPending
        { timestamp := some 100, frame := some 100, active := some 1,
          activeName := some "hd", published := [(1, 100)] }).active = none
    ∧ 1 ∈ (teardownPending
        { timestamp := some 100, frame := some 100, active := some 1,
          activeName := some "hd", published := [(1, 100)] }).closed
    ∧ (teardownPending
        { timestamp := some 100, frame := some 100, active := some 1,
          activeName := some "hd", published := [(1, 100)] }).closedFrames
        = 1 := by
  have h := teardown_clears_frame
    { timestamp := some 100, frame := some 100, active := some 1,
      activeName := some "hd", published := [(1, 100)] } 1 100 rfl rfl
  exact ⟨rfl, h.1, h.2.1, h.2.2.1, h.2.2.2.1⟩

/-- C3: on a selection change `#runPending` opens a pending pipeline while
the active one keeps running (first conjunct: the new run closes only the
previous pending effect and leaves `#active`, the `frame` signal and the
publication trace untouched), and the first decoded frame of the pending
pipeline that passes the staleness checks and the Sync gate is published
and promotes it: the previously active effect is closed, `#active` becomes
the pending effect, `#pending` clears and the `active` signal is set to
the new rendition's name (second conjunct). -/
theorem pending_promotion_switch :
    (∀ (s : SourceState) (e a : Nat),
      s.active = some a → s.pending ≠ some a →
        (startPending s e).active = some a
        ∧ (startPending s e).pending = some e
        ∧ (startPending s e).frame = s.frame
        ∧ (startPending s e).published = s.published
        ∧ (a ∈ (startPending s e).closed ↔ a ∈ s.closed))
    ∧ (∀ (s : SourceState) (e o : Nat) (name : String) (ts : Int),
      s.pending = some e → s.active = some o → ¬ ts < s.timestamp.getD 0 →
        (handleFrame s e name ts false).active = some e
        ∧ (handleFrame s e name ts false).pending = none
        ∧ (handleFrame s e name ts false).activeName = some name
        ∧ o ∈ (handleFrame s e name ts false).closed
        ∧ (handleFrame s e name ts false).published =
            (framePreWait s e ts).1.published ++ [(e, ts)]) := by
  constructor
  · intro s e a ha hpa
    unfold startPending
    cases hp : s.pending with
    | none => simp [ha]
    | some p =>
      have hap : a ≠ p := fun h => hpa (h ▸ hp)
      simp [ha, hap]
  · intro s e o name ts hp ha hts
    rw [handleFrame_run s e name ts hts, framePreWait_pass_fst s e ts hts]
    rw [framePostWait_promote _ e o name ts
      (by split <;> simpa using hp)
      (by split <;> simpa using ha)
      (by split <;> simpa using hts)]
    refine ⟨rfl, rfl, rfl, by simp, rfl⟩

/-- C3 witness: a concrete promotion — pending effect 2 decodes a frame at
150 ms while effect 1 is active. -/
theorem pending_promotion_switch_witness :
    ((startPending
        { timestamp := some 100, frame := some 100, active := some 1,
          activeName := some "a", published := [(1, 100)] } 2).active = some 1
      ∧ (startPending
        { timestamp := some 100, frame := some 100, active := some 1,
          activeName := some "a", published := [(1, 100)] } 2).pending = some 2)
    ∧ ((handleFrame
        { timestamp := some 100, frame := some 100, pending := some 2,
          active := some 1, activeName := some "a",
          published := [(1, 100)] } 2 "b" 150 false).active = some 2
      ∧ (handleFrame
        { timestamp := some 100, frame := some 100, pending := some 2,
          active := some 1, activeName := some "a",
          published := [(1, 100)] } 2 "b" 150 false).activeName = some "b"
      ∧ 1 ∈ (handleFrame
        { timestamp := some 100, frame := some 100, pending := some 2,
          active := some 1, activeName := some "a",
          published := [(1, 100)] } 2 "b" 150 false).closed) := by
  have h1 := pending_promotion_switch.1
    { timestamp := some 100, frame := some 100, active := some 1,
      activeName := some "a", published := [(1, 100)] } 2 1 rfl (by decide)
  have h2 := pending_promotion_switch.2
    { timestamp := some 100, frame := some 100, pending := some 2,
      active := some 1, activeName := some "a",
      published := [(1, 100)] } 2 1 "b" 150 rfl rfl (by decide)
  exact ⟨⟨h1.1, h1.2.1⟩, h2.1, h2.2.2.1, h2.2.2.2.1⟩

/-- C6: a decoded frame that passes the initial staleness check while the
`frame` signal is undefined is published immediately as a placeholder,
before the Sync wait; when a frame is already published, the pre-wait
phase publishes nothing and leaves the state unchanged. -/
theorem placeholder_latch :
    (∀ (s : SourceState) (e : Nat) (ts : Int),
      ¬ ts < s.timestamp.getD 0 → s.frame = none →
        (framePreWait s e ts).1.frame = some ts
        ∧ (framePreWait s e ts).1.published = s.published ++ [(e, ts)]
        ∧ (framePreWait s e ts).2 = true)
    ∧ (∀ (s : SourceState) (e : Nat) (ts f : Int),
      ¬ ts < s.timestamp.getD 0 → s.frame = some f →
        (framePreWait s e ts).1 = s ∧ (framePreWait s e ts).2 = true) := by
  constructor
  · intro s e ts hts hf
    rw [framePreWait_pass s e ts hts]
    simp [hf]
  · intro s e ts f hts hf
    rw [framePreWait_pass s e ts hts]
    simp [hf]

/-- C6 witness: a fresh state latches the first frame before the wait; a
state with a published frame does not. -/
theorem placeholder_latch_witness :
    ((framePreWait ({} : SourceState) 1 100).1.frame = some 100
      ∧ (framePreWait ({} : SourceState) 1 100).1.published = [(1, 100)]
      ∧ (framePreWait ({} : SourceState) 1 100).2 = true)
    ∧ ((framePreWait
        { timestamp := some 90, frame := some 90, active := some 1,
          published := [(1, 90)] } 1 100).1 =
        { timestamp := some 90, frame := some 90, active := some 1,
          published := [(1, 90)] }
      ∧ (framePreWait
        { timestamp := some 90, frame := some 90, active := some 1,
          published := [(1, 90)] } 1 100).2 = true) := by
  have h1 := placeholder_latch.1 ({} : SourceState) 1 100 (by decide) rfl
  have h2 := placeholder_latch.2
    { timestamp := some 90, frame := some 90, active := some 1,
      published := [(1, 90)] } 1 100 90 (by decide) rfl
  exact ⟨⟨h1.1, by simpa using h1.2.1, h1.2.2⟩, h2⟩

/-- The state after effect 1 was started as pending and published its
first frame (timestamp 100 ms), promoting itself to active. -/
def regressionStateA : SourceState :=
  handleFrame (startPending {} 1) 1 "a" 100 false

/-- Rendition switch: effect 2 becomes pending, decodes a frame at 150 ms,
publishes it and promotes itself, closing effect 1 — whose cleanup, firing
while `#active` still points at it, resets `#timestamp` to undefined. -/
def regressionStateB : SourceState :=
  handleFrame (startPending regressionStateA 2) 2 "b" 150 false

/-- Effect 2, now active, decodes a late frame at 120 ms. -/
def regressionStateC : SourceState :=
  handleFrame regressionStateB 2 "b" 120 false

/-- C1: the code violates the claim.  After a promotion the old active
effect's cleanup runs while `#active` still references it (source.ts 241
runs before 242), so it resets `#timestamp` right after the new timestamp
was stored; a later frame that is older than the last published one then
passes both staleness checks and is published.  Track effect 2 publishes
150 then 120 — a decreasing sequence on a single track. -/
theorem frame_timestamp_regression_after_promotion :
    regressionStateB.timestamp = none
    ∧ publishedOn regressionStateC 2 = [150, 120]
    ∧ nondecreasing (publishedOn regressionStateC 2) = false := by decide

/-- The state after effect 1 was started as pending and published its
first frame (timestamp 100 ms), promoting itself to active. -/
def leakStateA : SourceState :=
  handleFrame (startPending {} 1) 1 "a" 100 false

/-- `Source.close()` on that state: the frame signal is cleared and the
root scope's cleanup closes `#pending` — which is empty, since the track
was promoted.  The active effect is not closed. -/
def leakStateB : SourceState :=
  sourceClose leakStateA

/-- The still-running active effect decodes another frame (133 ms) after
`close()` returned; its `Sync` wait is not cancelled because its effect
was never closed. -/
def leakStateC : SourceState :=
  handleFrame leakStateB 1 "a" 133 false

/-- C4: the code violates the claim.  `close()` closes only `#pending`
via the `#runPending` cleanup (source.ts 193); a promoted `#active` effect
has no parent scope and is never closed, so its decoder-output path keeps
publishing after `close()` returns — here the placeholder branch re-latches
immediately (the frame signal was just cleared) and the post-wait publish
follows: two `frame` updates after close. -/
theorem publish_after_close :
    leakStateB.active = some 1
    ∧ 1 ∉ leakStateB.closed
    ∧ leakStateB.frame = none
    ∧ leakStateC.published = leakStateB.published ++ [(1, 133), (1, 133)]
    ∧ leakStateC.frame = some 133 := by decide

/-- C2 (amended): for rendition sets whose names are non-empty strings,
`#selectRendition` equals the declarative rule: with at most one entry,
that entry; otherwise the first-in-entry-order rendition of minimal area
strictly greater than the target (default `MAX_SAFE_INTEGER / 2 - 1`),
else the first-in-entry-order rendition of maximal area strictly less than
the target, else the first entry; a rendition whose area equals the target
exactly is never chosen by the scan. -/
theorem select_rendition_amended :
    ∀ (rs : List (String × VideoConfig)) (t : Option Target),
      (∀ x ∈ rs, x.1 ≠ "") →
      selectRendition rs t = specSelectAmended rs t := by
  intro rs t hnames
  unfold selectRendition specSelectAmended
  by_cases hlen : rs.length ≤ 1
  · rw [if_pos hlen, if_pos hlen]
  · rw [if_neg hlen, if_neg hlen]
    rw [selLoop_split ((t.bind (·.pixels)).getD maxPixelsDefault) rs {} none none
      rfl rfl rfl rfl (by intro v hv; exact Option.noConfusion hv)
      (by intro v hv; exact Option.noConfusion hv)]
    unfold selReturn
    cases hA : minFold none ((candidates rs).filter fun x =>
        (t.bind (·.pixels)).getD maxPixelsDefault < x.2) with
    | some p =>
      have hpmem : p ∈ candidates rs := by
        rcases minFold_mem _ none p hA with h | h
        · exact (List.mem_filter.mp h).1
        · exact Option.noConfusion h
      obtain ⟨c, hc⟩ := candidates_name rs p hpmem
      have hpn : p.1 ≠ "" := hnames (p.1, c) hc
      simp [strTruthy, hpn]
    | none =>
      cases hB : maxFold none ((candidates rs).filter fun x =>
          x.2 < (t.bind (·.pixels)).getD maxPixelsDefault) with
      | some p =>
        have hpmem : p ∈ candidates rs := by
          rcases maxFold_mem _ none p hB with h | h
          · exact (List.mem_filter.mp h).1
          · exact Option.noConfusion h
        obtain ⟨c, hc⟩ := candidates_name rs p hpmem
        have hpn : p.1 ≠ "" := hnames (p.1, c) hc
        simp [strTruthy, hpn]
      | none =>
        simp [strTruthy]

/-- The concrete two-rendition set of the C2 counterexample: `a` is
100×100 (area 10000), `b` is 200×200 (area 40000). -/
def equalAreaRenditions : List (String × VideoConfig) :=
  [("a", { codec := "avc1", codedWidth := some 100,
           codedHeight := some 100, container := .legacy }),
    ("b", { codec := "avc1", codedWidth := some 200,
            codedHeight := some 200, container := .legacy })]

/-- A target of exactly 10000 pixels. -/
def equalAreaTarget : Option Target :=
  some { pixels := some 10000 }

/-- C2 counterexample: with a target of exactly 10000 pixels, the claim's
rule ("smallest rendition whose area is ≥ the target") picks `a`
(area 10000 ≥ 10000); the code's strict comparison `size > pixels` skips
`a` entirely and returns `b`. -/
theorem select_rendition_equal_area_counterexample :
    selectRendition equalAreaRenditions equalAreaTarget = some "b"
    ∧ specClaimSelect equalAreaRenditions equalAreaTarget = some "a" := by
  constructor <;> decide

/-- C2 witness for the amended theorem, at the same concrete input. -/
theorem select_rendition_amended_witness :
    (∀ x ∈ equalAreaRenditions, x.1 ≠ "")
    ∧ selectRendition equalAreaRenditions equalAreaTarget =
        specSelectAmended equalAreaRenditions equalAreaTarget :=
  ⟨by decide,
    select_rendition_amended equalAreaRenditions equalAreaTarget (by decide)⟩

/-- Folding the stats update from any starting value counts every received
sample. -/
theorem statsFold_closed :
    ∀ (l : List Sample) (c : Option VideoStats) (h : l ≠ []),
      l.foldl receiveSample c =
        some
          { frameCount := (c.map (·.frameCount)).getD 0 + l.length
            timestamp := (l.getLast h).timestamp
            bytesReceived :=
              (c.map (·.bytesReceived)).getD 0 + (l.map (·.data.length)).sum } := by
  intro l
  induction l with
  | nil => intro c h; exact absurd rfl h
  | cons x xs ih =>
    intro c h
    rw [List.foldl_cons]
    by_cases hxs : xs = []
    · subst hxs
      simp [receiveSample, statsUpdate]
    · rw [ih (receiveSample c x) hxs]
      have hlast : (x :: xs).getLast h = xs.getLast hxs := by
        rw [List.getLast_cons hxs]
      rw [hlast]
      simp only [receiveSample, statsUpdate, Option.map_some', Option.getD_some,
        List.length_cons, List.map_cons, List.sum_cons]
      refine congrArg some (VideoStats.ext ?_ rfl ?_) <;> simp <;> omega

/-- C8 counterexample: stats are updated at receive time, in the input
loop, for every received sample — not as the final step of frame emission
and not only for published frames.  A late CMAF sample (timestamp 50 ms
while the last published timestamp is 100 ms) bumps `frameCount` and even
moves `stats.timestamp` backwards, yet its decoded frame is dropped by the
staleness check and never published. -/
theorem stats_update_on_unpublished_frame :
    receiveSample (some { frameCount := 1, timestamp := 100, bytesReceived := 20 })
        { timestamp := 50, data := [0, 1, 2, 3, 4, 5, 6, 7, 8, 9] } =
      some { frameCount := 2, timestamp := 50, bytesReceived := 30 }
    ∧ handleFrame
        { timestamp := some 100, frame := some 100, active := some 1,
          published := [(1, 100)] } 1 "a" 50 false =
      { timestamp := some 100, frame := some 100, active := some 1,
        published := [(1, 100)] } := by
  constructor <;> decide

/-- C8 (amended): the stats signal is updated once per received encoded
sample, at receive time before `decoder.decode`, independent of
publication: after receiving samples `l`, `frameCount` is the number of
received samples, `bytesReceived` the sum of their byte lengths, and
`timestamp` the last received sample's timestamp. -/
theorem stats_per_received_sample :
    ∀ (l : List Sample) (h : l ≠ []),
      statsAfter l =
        some
          { frameCount := l.length
            timestamp := (l.getLast h).timestamp
            bytesReceived := (l.map (·.data.length)).sum } := by
  intro l h
  unfold statsAfter
  rw [statsFold_closed l none h]
  simp

/-- C8 amended-theorem witness: two concrete samples. -/
theorem stats_per_received_sample_witness :
    statsAfter
        [{ timestamp := 33, data := [1, 2, 3] },
          { timestamp := 66, keyframe := true, data := [4, 5, 6, 7] }] =
      some { frameCount := 2, timestamp := 66, bytesReceived := 7 } :=
  stats_per_received_sample
    [{ timestamp := 33, data := [1, 2, 3] },
      { timestamp := 66, keyframe := true, data := [4, 5, 6, 7] }]
    (by decide)

end MoqVideo
